import Mathlib

/-!
Verification of the DOM target-resolution engine of `maa.py` (SLCM attendance
automation). The Python source is shallowly embedded: pure text/matching
helpers become Lean functions over `List Char` (Python/JS strings are modelled
by their character lists, attributes that may be absent by `""`), the
time-driven poll loops become recursions over an explicit, finite schedule of
timestamped observations, and the browser DOM is abstracted as oracle inputs
(values the injected scripts would return, with `Except Unit` marking calls
that may raise). All definitions are executable.
-/

namespace SLCM

/-! ## Python/JS string primitives, modelled over character lists -/

/-- Whitespace characters recognised by Python's `str.split`/`str.strip`
(ASCII range, which covers all inputs handled by the tool). -/
def isPySpace (c : Char) : Bool :=
  c = ' ' || c = '\t' || c = '\n' || c = '\r' || c = '\x0b' || c = '\x0c'

/-- Drop leading whitespace of a character list. -/
def dropWs : List Char → List Char
  | [] => []
  | c :: t => if isPySpace c then dropWs t else c :: t

/-- Python `str.strip()` on a character list. -/
def pyStrip (l : List Char) : List Char :=
  (dropWs (dropWs l.reverse).reverse)

/-- Python `str.strip()` on a string. -/
def pyStripS (s : String) : String := ⟨pyStrip s.data⟩

/-- Python `str.upper()` on a string (ASCII inputs). -/
def upS (s : String) : String := ⟨s.data.map Char.toUpper⟩

/-- Python `str.lower()` on a string (ASCII inputs). -/
def lowS (s : String) : String := ⟨s.data.map Char.toLower⟩

/-- Python `str.split()` (split on whitespace runs, dropping empties);
`acc` holds the current word, reversed. -/
def wordsAux : List Char → List Char → List (List Char)
  | [], acc => if acc.isEmpty then [] else [acc.reverse]
  | c :: t, acc =>
    if isPySpace c then
      if acc.isEmpty then wordsAux t [] else acc.reverse :: wordsAux t []
    else wordsAux t (c :: acc)

/-- Join word lists with single spaces: Python `" ".join(words)`. -/
def joinSp : List (List Char) → List Char
  | [] => []
  | [w] => w
  | w :: ws => w ++ ' ' :: joinSp ws

/-- Python `" ".join(s.split())`: collapse whitespace runs to single spaces. -/
def pyNorm (s : String) : List Char := joinSp (wordsAux s.data [])

/-- Substring test: does `needle` occur contiguously in `hay`
(Python `needle in hay`, JS `hay.includes(needle)`)? -/
def hasSub (needle : List Char) : List Char → Bool
  | [] => needle.isEmpty
  | c :: t => needle.isPrefixOf (c :: t) || hasSub needle t

/-- Decimal digits of a natural number, most significant first (`fuel`
bounds the recursion depth; `fuel = n + 1` always suffices). -/
def natDigitsAux : Nat → Nat → List Char
  | 0, _ => []
  | fuel + 1, n =>
    if n < 10 then [Nat.digitChar n]
    else natDigitsAux fuel (n / 10) ++ [Nat.digitChar (n % 10)]

def natDigits (n : Nat) : List Char := natDigitsAux (n + 1) n

/-- Python `str(n)` for a natural number. -/
def natStr (n : Nat) : String := ⟨natDigits n⟩

/-- Zero-pad to two digits (strftime `%m`/`%d`). -/
def pad2 (n : Nat) : String := if n < 10 then "0" ++ natStr n else natStr n

/-- Zero-pad to four digits (strftime `%Y`). -/
def pad4 (n : Nat) : String :=
  if n < 10 then "000" ++ natStr n
  else if n < 100 then "00" ++ natStr n
  else if n < 1000 then "0" ++ natStr n
  else natStr n

/-! ## Dates -/

/-- A calendar date as held by a Python `datetime.date`. -/
structure PyDate where
  year : Nat
  month : Nat
  day : Nat
deriving DecidableEq

/-- strftime `"%Y-%m-%d"`: the machine-readable form compared against the
calendar's `data-date` attributes. -/
def fmtYmd (d : PyDate) : String :=
  pad4 d.year ++ "-" ++ pad2 d.month ++ "-" ++ pad2 d.day

/-- strftime `"%B"`: full English month name (empty for an out-of-range
month index, which a validated `datetime.date` never produces). -/
def monthName : Nat → String
  | 1 => "January"
  | 2 => "February"
  | 3 => "March"
  | 4 => "April"
  | 5 => "May"
  | 6 => "June"
  | 7 => "July"
  | 8 => "August"
  | 9 => "September"
  | 10 => "October"
  | 11 => "November"
  | 12 => "December"
  | _ => ""

/-! ## Day candidates (`collect_candidates` snapshots) -/

/-- Snapshot of one mini-calendar DOM node, as assembled by the injected
`collect_candidates` script in `click_calendar_date_fast`. -/
structure Candidate where
  dataDate : String
  cls : String
  aria : String
  title : String
  top : Int
  isDisabled : Bool
  priority : Nat
deriving DecidableEq

/-- Embedding of `unambiguous_for_target` (maa.py lines 659-671): the quick
pre-check used to decide whether a sidebar candidate is safe to click without
month navigation. `target` is non-null on this code path. -/
def unambiguous_for_target (c : Candidate) (target : PyDate) : Bool :=
  let dd := pyStripS c.dataDate
  if dd ≠ "" ∧ dd = fmtYmd target then true
  else
    let txt := pyStripS (c.aria ++ " " ++ c.title)
    if txt ≠ "" then
      let mon := monthName target.month
      let yr := natStr target.year
      if mon ≠ "" ∧ hasSub (lowS mon).data (lowS txt).data then true
      else if yr ≠ "" ∧ hasSub yr.data txt.data then true
      else false
    else false

/-- The unambiguity test as the specification words it: exact date attribute,
or descriptive text containing BOTH the target's full month name and its
four-digit year. Stated for comparison with `unambiguous_for_target`. -/
def unambiguousSpec (c : Candidate) (target : PyDate) : Bool :=
  let txt := pyStripS (c.aria ++ " " ++ c.title)
  pyStripS c.dataDate = fmtYmd target ||
    (hasSub (lowS (monthName target.month)).data (lowS txt).data &&
     hasSub (natStr target.year).data txt.data)

/-! ## Small string facts -/

theorem ne_empty_of_data_ne {s : String} (h : s.data ≠ []) : s ≠ "" :=
  fun he => h (by rw [he])

theorem natDigits_ne_nil (n : Nat) : natDigits n ≠ [] := by
  unfold natDigits natDigitsAux
  split <;> simp

theorem natStr_ne_empty (n : Nat) : natStr n ≠ "" :=
  ne_empty_of_data_ne (natDigits_ne_nil n)

theorem fmtYmd_ne_empty (d : PyDate) : fmtYmd d ≠ "" := by
  apply ne_empty_of_data_ne
  show ((pad4 d.year ++ "-" ++ pad2 d.month ++ "-" ++ pad2 d.day).data ≠ [])
  rw [String.data_append, String.data_append, String.data_append,
    String.data_append]
  simp

theorem hasSub_nil_right (n : List Char) : hasSub n [] = n.isEmpty := rfl

theorem eq_empty_of_data_eq_nil {s : String} (h : s.data = []) : s = "" := by
  cases s
  simp only at h
  rw [h]

theorem data_ne_nil_of_ne_empty {s : String} (h : s ≠ "") : s.data ≠ [] :=
  fun hd => h (eq_empty_of_data_eq_nil hd)

/-! ## C1 — the unambiguity test -/

/-- C1 (counterexample): the claim says `unambiguous_for_target` is true only
when the candidate has the exact date attribute or its descriptive text holds
BOTH the month name AND the year; but a candidate whose aria-label holds only
the month name ("October 15", no year) is already accepted by the code. -/
theorem C1_unambiguous_counterexample :
    unambiguous_for_target
      { dataDate := "", cls := "", aria := "October 15", title := "",
        top := 0, isDisabled := false, priority := 50 }
      { year := 2025, month := 10, day := 12 } = true ∧
    unambiguousSpec
      { dataDate := "", cls := "", aria := "October 15", title := "",
        top := 0, isDisabled := false, priority := 50 }
      { year := 2025, month := 10, day := 12 } = false := by
  constructor
  · decide
  · decide

/-- C1 (amended): `unambiguous_for_target` returns true exactly when the
candidate's stripped date attribute equals the target's `YYYY-MM-DD` form, OR
its descriptive text (aria-label/title) contains the target's full month name
(case-insensitively), OR it contains the target's year — month and year are
alternatives, not a conjunction. -/
theorem C1_unambiguous_amended (c : Candidate) (t : PyDate) :
    unambiguous_for_target c t = true ↔
      (pyStripS c.dataDate = fmtYmd t ∨
       (monthName t.month ≠ "" ∧
         hasSub (lowS (monthName t.month)).data
           (lowS (pyStripS (c.aria ++ " " ++ c.title))).data = true) ∨
       hasSub (natStr t.year).data
         (pyStripS (c.aria ++ " " ++ c.title)).data = true) := by
  unfold unambiguous_for_target
  simp only []
  split_ifs with h1 h2 h3 h4
  · exact iff_of_true rfl (Or.inl h1.2)
  · exact iff_of_true rfl (Or.inr (Or.inl h3))
  · exact iff_of_true rfl (Or.inr (Or.inr h4.2))
  · refine iff_of_false (by simp) ?_
    rintro (hA | hM | hY)
    · exact h1 ⟨by rw [hA]; exact fmtYmd_ne_empty t, hA⟩
    · exact h3 hM
    · exact h4 ⟨natStr_ne_empty t.year, hY⟩
  · refine iff_of_false (by simp) ?_
    have htxt : (pyStripS (c.aria ++ " " ++ c.title)).data = [] := by
      rw [not_not.mp h2]
    rintro (hA | ⟨hm, hs⟩ | hY)
    · exact h1 ⟨by rw [hA]; exact fmtYmd_ne_empty t, hA⟩
    · have hlo : (lowS (pyStripS (c.aria ++ " " ++ c.title))).data = [] := by
        show (pyStripS (c.aria ++ " " ++ c.title)).data.map Char.toLower = []
        rw [htxt]
        rfl
      rw [hlo, hasSub_nil_right] at hs
      have : (lowS (monthName t.month)).data = [] := by
        simpa [List.isEmpty_iff] using hs
      have hmd : (monthName t.month).data = [] := by
        simpa [lowS] using this
      exact hm (eq_empty_of_data_eq_nil hmd)
    · rw [htxt, hasSub_nil_right] at hY
      have : (natStr t.year).data = [] := by simpa [List.isEmpty_iff] using hY
      exact natStr_ne_empty t.year (eq_empty_of_data_eq_nil this)

/-! ## Event-tile text matching (`matches_event_text`, maa.py lines 890-919)

The Python code tests three regex alternatives over the normalized,
upper-cased tile text `T`. The regexes are embedded as explicit scanners
over character lists with the same semantics (including backtracking over
`\s*`, the negative lookahead `(?!\s*-\s*\d+)`, the lookbehind/lookahead
character classes `[A-Z0-9]`, and word boundaries `\b`). -/

/-- Python `s.upper()` to characters. -/
def upChars (s : String) : List Char := s.data.map Char.toUpper

/-- The tile-text normalization `norm` in `matches_event_text`:
`" ".join(s.split()).upper()`. -/
def normUp (s : String) : List Char := (pyNorm s).map Char.toUpper

/-- Regex class `[A-Z0-9]` (the text is upper-cased before matching). -/
def isAZ09 (c : Char) : Bool :=
  ('A' ≤ c && c ≤ 'Z') || ('0' ≤ c && c ≤ '9')

/-- Regex class `\w` on ASCII: letters, digits, underscore (used by `\b`). -/
def isWordCh (c : Char) : Bool :=
  ('A' ≤ c && c ≤ 'Z') || ('a' ≤ c && c ≤ 'z') || ('0' ≤ c && c ≤ '9') || c = '_'

/-- Lookahead body `\s*-\s*\d`: optional spaces, a dash, optional spaces,
a digit (the prefix of `\s*-\s*\d+` that decides the negative lookahead;
`\s*` is maximal here since a space is neither `-` nor a digit). -/
def dashDigitAhead (l : List Char) : Bool :=
  match dropWs l with
  | '-' :: r =>
    match dropWs r with
    | c :: _ => c.isDigit
    | [] => false
  | _ => false

/-- Lookahead `(?![A-Z0-9])` at a position. -/
def notAZ09Ahead : List Char → Bool
  | [] => true
  | c :: _ => !isAZ09 c

/-- Lookbehind `(?<![A-Z0-9])`: the previous character, if any, is not in
`[A-Z0-9]`. -/
def okBefore : Option Char → Bool
  | none => true
  | some p => !isAZ09 p

/-- Word boundary `\b` after a literal whose last character is `lc`. -/
def wordBoundaryAfter (lc : Char) : List Char → Bool
  | [] => isWordCh lc
  | c :: _ => isWordCh lc != isWordCh c

/-- Match of `(?<![A-Z0-9])S(?![A-Z0-9])` anchored at the current position
(`prev` is the character before the position). -/
def standaloneHere (S : List Char) (prev : Option Char) (l : List Char) : Bool :=
  okBefore prev && S.isPrefixOf l && notAZ09Ahead (l.drop S.length)

/-- `re.search` of `(?<![A-Z0-9])S(?![A-Z0-9])` — the section pattern used
when the section token contains a separator (e.g. `B-1`). -/
def searchStandalone (S : List Char) : Option Char → List Char → Bool
  | prev, [] => standaloneHere S prev []
  | prev, c :: t => standaloneHere S prev (c :: t) || searchStandalone S (some c) t

/-- Match of `(?<![A-Z0-9])S(?!\s*-\s*\d+)(?![A-Z0-9])` anchored at the
current position (regex `pat3`: bare standalone token not followed by a
dashed number). -/
def bareTokenHere (S : List Char) (prev : Option Char) (l : List Char) : Bool :=
  okBefore prev && S.isPrefixOf l &&
    (!dashDigitAhead (l.drop S.length) && notAZ09Ahead (l.drop S.length))

/-- `re.search` of `pat3`. -/
def searchBareToken (S : List Char) : Option Char → List Char → Bool
  | prev, [] => bareTokenHere S prev []
  | prev, c :: t => bareTokenHere S prev (c :: t) || searchBareToken S (some c) t

/-- Match of `\(\s*S\s*\)` anchored at the current position (regex `pat2`:
parenthesized section). -/
def parenHere (S : List Char) (l : List Char) : Bool :=
  match l with
  | '(' :: r =>
    let r1 := dropWs r
    S.isPrefixOf r1 &&
      (match dropWs (r1.drop S.length) with
       | ')' :: _ => true
       | _ => false)
  | _ => false

/-- `re.search` of `pat2` (`\s*` is maximal here because the section token
is stripped, so it neither starts nor ends with a space). -/
def searchParen (S : List Char) : List Char → Bool
  | [] => false
  | c :: t => parenHere S (c :: t) || searchParen S t

/-- Tail `S(?!\s*-\s*\d+)\b` of regex `pat1`, anchored at `l`; `prev` is the
character just before `l` (needed for the trailing `\b` when `S` is empty). -/
def secLiteralTail (S : List Char) (prev : Char) (l : List Char) : Bool :=
  S.isPrefixOf l &&
    (let post := l.drop S.length
     !dashDigitAhead post && wordBoundaryAfter (S.getLastD prev) post)

/-- Tail `\s*S(?!\s*-\s*\d+)\b` of `pat1`, with full backtracking over
`\s*`. -/
def secSpacedTail (S : List Char) (prev : Char) : List Char → Bool
  | [] => secLiteralTail S prev []
  | c :: r =>
    secLiteralTail S prev (c :: r) ||
      (if isPySpace c then secSpacedTail S c r else false)

/-- Tail `[:\-]?\s*S(?!\s*-\s*\d+)\b` of `pat1`. -/
def secPunctTail (S : List Char) (prev : Char) (l : List Char) : Bool :=
  secSpacedTail S prev l ||
    (match l with
     | c :: r => if c = ':' || c = '-' then secSpacedTail S c r else false
     | [] => false)

/-- Tail `\s*[:\-]?\s*S(?!\s*-\s*\d+)\b` of `pat1`, with full backtracking
over the first `\s*`. -/
def secGapTail (S : List Char) (prev : Char) : List Char → Bool
  | [] => secPunctTail S prev []
  | c :: r =>
    secPunctTail S prev (c :: r) ||
      (if isPySpace c then secGapTail S c r else false)

/-- Match of `\bSEC(?:TION)?\s*[:\-]?\s*S(?!\s*-\s*\d+)\b` anchored at the
current position (regex `pat1`; since `S` of `SEC` is a word character, the
leading `\b` says the previous character is absent or a non-word char). -/
def secFormHere (S : List Char) (prev : Option Char) (l : List Char) : Bool :=
  (match prev with | none => true | some p => !isWordCh p) &&
  (['S', 'E', 'C'].isPrefixOf l &&
    (let after := l.drop 3
     secGapTail S 'C' after ||
     (['T', 'I', 'O', 'N'].isPrefixOf after && secGapTail S 'N' (after.drop 4))))

/-- `re.search` of `pat1`. -/
def searchSecForm (S : List Char) : Option Char → List Char → Bool
  | prev, [] => secFormHere S prev []
  | prev, c :: t => secFormHere S prev (c :: t) || searchSecForm S (some c) t

/-- Section criterion of `matches_event_text` over the normalized text `T`:
a separator-bearing token requires an exact standalone match; a bare token
matches via `SEC/SECTION` prefix, parentheses, or standalone-without-dash. -/
def eventSecOk (sec : String) (T : List Char) : Bool :=
  if sec = "" then true
  else
    let secU := (pyStrip sec.data).map Char.toUpper
    if secU.contains '-' then searchStandalone secU none T
    else
      searchSecForm secU none T || searchParen secU T || searchBareToken secU none T

/-- Code, semester and section criteria of `matches_event_text` (the `ok`
accumulator just before the session test; the Python sequential
`ok = ok and ...` chain is an AND of the three tests). -/
def eventPreOk (txt code sem sec : String) : Bool :=
  let T := normUp txt
  (if code = "" then true else hasSub (upChars code) T) &&
  (if sem = "" then true else hasSub ("SEMESTER ".data ++ upChars sem) T) &&
  eventSecOk sec T

/-- Embedding of `matches_event_text` (maa.py lines 890-919). The session
criterion is applied only when `sess` is non-blank and the section token has
no `-` separator; the Python guard also tests `ok`, which is redundant with
the conjunction used here. -/
def matches_event_text (txt code sem sec sess : String) : Bool :=
  if sess ≠ "" ∧ pyStripS sess ≠ "" ∧
      (sec = "" ∨ (pyStrip sec.data).contains '-' = false) then
    eventPreOk txt code sem sec &&
      hasSub ("SESSION ".data ++ (pyStrip sess.data).map Char.toUpper) (normUp txt)
  else eventPreOk txt code sem sec

/-! ## C3 — bare section token versus dashed section token -/

/-- C3: on the tile text `"OS - CSE 3123 Semester V B-1"`, the section token
`"B"` does not match (the bare token must not be immediately followed by a
dashed number), while the section token `"B-1"` matches via an exact
standalone-token match. -/
theorem C3_section_token_matching :
    matches_event_text "OS - CSE 3123 Semester V B-1" "CSE 3123" "V" "B" "" = false ∧
    matches_event_text "OS - CSE 3123 Semester V B-1" "CSE 3123" "V" "B-1" "" = true := by
  constructor
  · decide
  · decide

/-! ## C5 — session criterion gating -/

theorem pyStrip_empty : pyStrip ("".data) = [] := rfl

/-- C5: the session criterion of `matches_event_text` is consulted only when
the section token has no `-` separator: with a separator-bearing section the
session value cannot change the result, and when it is consulted (no
separator, non-blank session) a successful match forces the literal
`"SESSION {n}"` substring in the normalized tile text. -/
theorem C5_session_consultation :
    (∀ txt code sem sec sess sess' : String,
        (pyStrip sec.data).contains '-' = true →
        matches_event_text txt code sem sec sess =
          matches_event_text txt code sem sec sess') ∧
    (∀ txt code sem sec sess : String,
        (pyStrip sec.data).contains '-' = false →
        pyStripS sess ≠ "" →
        matches_event_text txt code sem sec sess = true →
        hasSub ("SESSION ".data ++ (pyStrip sess.data).map Char.toUpper)
          (normUp txt) = true) := by
  constructor
  · intro txt code sem sec sess sess' hd
    have hno : ¬(sec = "" ∨ (pyStrip sec.data).contains '-' = false) := by
      rintro (h | h)
      · rw [h, pyStrip_empty] at hd
        exact absurd hd (by decide)
      · rw [h] at hd
        cases hd
    unfold matches_event_text
    rw [if_neg fun hC => hno hC.2.2, if_neg fun hC => hno hC.2.2]
  · intro txt code sem sec sess hnd hs hm
    have hsne : sess ≠ "" := by
      intro h
      apply hs
      rw [h]
      rfl
    unfold matches_event_text at hm
    rw [if_pos ⟨hsne, hs, Or.inr hnd⟩] at hm
    simp only [Bool.and_eq_true] at hm
    exact hm.2

/-- C5 witness: concrete instances of both parts, with every hypothesis
discharged by evaluation. -/
theorem C5_session_consultation_witness :
    matches_event_text "OS - CSE 3123 Semester V B-1" "CSE 3123" "V" "B-1" "1" =
      matches_event_text "OS - CSE 3123 Semester V B-1" "CSE 3123" "V" "B-1" "2" ∧
    hasSub ("SESSION ".data ++ (pyStrip "4".data).map Char.toUpper)
      (normUp "OS - CSE 3123 Semester V B SESSION 4") = true :=
  ⟨C5_session_consultation.1 _ _ _ _ "1" "2" (by decide),
   C5_session_consultation.2 "OS - CSE 3123 Semester V B SESSION 4" "CSE 3123" "V" "B" "4"
     (by decide) (by decide) (by decide)⟩

/-! ## Candidate collection and click ordering (maa.py lines 336-405, 756-771) -/

/-- Raw snapshot of one DOM node in the calendar sidebar, as read by the
injected collection script (missing attributes are `""`; `rectTop` is
`rect.top - wrapRect.top` before the clamp to zero). -/
structure DomNode where
  txt : String
  dataDate : String
  className : String
  aria : String
  title : String
  rectTop : Int
  ariaDisabled : String
deriving DecidableEq

/-- Disabled/grayed-out detection of the collection script: class-name
substring tests plus the `aria-disabled` attribute. -/
def nodeIsDisabled (n : DomNode) : Bool :=
  let cls := (lowS n.className).data
  hasSub "disabled".data cls || hasSub "slds-disabled".data cls ||
  hasSub "slds-disabled-text".data cls || hasSub "prevmonth".data cls ||
  hasSub "nextmonth".data cls || hasSub "outside".data cls ||
  hasSub "adjacent".data cls || hasSub "other-month".data cls ||
  n.ariaDisabled = "true"

/-- JS `String.split('-')` with accumulator. -/
def splitDashAux : List Char → List Char → List (List Char)
  | [], acc => [acc.reverse]
  | c :: t, acc =>
    if c = '-' then acc.reverse :: splitDashAux t [] else splitDashAux t (c :: acc)

/-- JS `targetDate.split('-')[0] + '-' + targetDate.split('-')[1]`: the
year-month probe used for the priority-90 test. -/
def ymKey (targetStr : String) : List Char :=
  let parts := splitDashAux targetStr.data []
  (parts.getD 0 []) ++ '-' :: (parts.getD 1 [])

/-- Priority rule of the collection script (targetDate is always supplied on
this code path): 100 for an exact `data-date` match, 90 when the attribute
contains the target's year-month, 50 when enabled, 10 otherwise. -/
def candPriority (targetStr dataDate : String) (isDisabled : Bool) : Nat :=
  if dataDate = targetStr then 100
  else if dataDate ≠ "" ∧ hasSub (ymKey targetStr) dataDate.data = true then 90
  else if isDisabled = false then 50
  else 10

/-- Embedding of the `collect_candidates` script: keep the nodes whose
trimmed text equals the day string, snapshot their attributes, clamp the
container-relative offset at zero, and score them. -/
def collect_candidates (day : String) (target : PyDate) (nodes : List DomNode) :
    List Candidate :=
  nodes.filterMap fun n =>
    if pyStripS n.txt = day then
      let dataDate := pyStripS n.dataDate
      let isDis := nodeIsDisabled n
      some { dataDate := dataDate
             cls := lowS n.className
             aria := pyStripS n.aria
             title := pyStripS n.title
             top := max 0 n.rectTop
             isDisabled := isDis
             priority := candPriority (fmtYmd target) dataDate isDis }
    else none

/-- Comparison used by `sorted(candidates, key=lambda c: (-priority, top))`:
descending priority, then ascending offset. -/
def candLE (c d : Candidate) : Bool :=
  d.priority < c.priority || (c.priority = d.priority && c.top ≤ d.top)

/-- Stable insertion preserving `candLE` order: an element moves past another
only when the other's key is strictly smaller, which reproduces the
stability of Python's sort. -/
def insertCand (x : Candidate) : List Candidate → List Candidate
  | [] => [x]
  | y :: t => if candLE x y then x :: y :: t else y :: insertCand x t

/-- Stable sort by `(-priority, top)` — `candidates_sorted` in the code. -/
def sortCands : List Candidate → List Candidate
  | [] => []
  | x :: t => insertCand x (sortCands t)

/-- Group `exact_matches` of `click_calendar_date_fast` (line 764): the
sorted candidates with priority at least 90. -/
def clickGroup1 (S : List Candidate) : List Candidate :=
  S.filter fun c => decide (90 ≤ c.priority)

/-- Group `non_disabled` (line 767): sorted, enabled, and not already listed
(Python's `c not in click_order` value-membership test). -/
def clickGroup2 (S : List Candidate) : List Candidate :=
  S.filter fun c => !c.isDisabled && !(decide (c ∈ clickGroup1 S))

/-- Group `remaining` (line 770): whatever is not already listed. -/
def clickGroup3 (S : List Candidate) : List Candidate :=
  S.filter fun c => !(decide (c ∈ clickGroup1 S ++ clickGroup2 S))

/-- The click-attempt sequence of `click_calendar_date_fast` (lines 761-771):
the priority-90-and-above group first, then the non-disabled candidates not
already listed, then everything else, each group in sorted order. -/
def click_order (cands : List Candidate) : List Candidate :=
  let sorted := sortCands cands
  clickGroup1 sorted ++ clickGroup2 sorted ++ clickGroup3 sorted

/-! ### Order facts -/

theorem candLE_total (x y : Candidate) (h : candLE x y = false) : candLE y x = true := by
  unfold candLE at h ⊢
  simp only [Bool.or_eq_false_iff, Bool.and_eq_false_iff, Bool.or_eq_true,
    Bool.and_eq_true, decide_eq_false_iff_not, decide_eq_true_eq] at h ⊢
  omega

theorem candLE_trans (x y z : Candidate) (hxy : candLE x y = true)
    (hyz : candLE y z = true) : candLE x z = true := by
  unfold candLE at hxy hyz ⊢
  simp only [Bool.or_eq_true, Bool.and_eq_true, decide_eq_true_eq] at hxy hyz ⊢
  omega

theorem mem_insertCand (a x : Candidate) (l : List Candidate) :
    a ∈ insertCand x l ↔ a = x ∨ a ∈ l := by
  induction l with
  | nil => simp [insertCand]
  | cons y t ih =>
    unfold insertCand
    split
    · simp [List.mem_cons]
    · simp only [List.mem_cons, ih]
      tauto

theorem mem_sortCands (a : Candidate) (l : List Candidate) :
    a ∈ sortCands l ↔ a ∈ l := by
  induction l with
  | nil => simp [sortCands]
  | cons x t ih =>
    unfold sortCands
    rw [mem_insertCand]
    simp [ih]

theorem pairwise_insertCand (x : Candidate) (l : List Candidate)
    (h : l.Pairwise (fun a b => candLE a b = true)) :
    (insertCand x l).Pairwise (fun a b => candLE a b = true) := by
  induction l with
  | nil => simp [insertCand]
  | cons y t ih =>
    rw [List.pairwise_cons] at h
    unfold insertCand
    split
    · rename_i hxy
      rw [List.pairwise_cons]
      refine ⟨?_, List.pairwise_cons.mpr h⟩
      intro z hz
      rcases List.mem_cons.mp hz with rfl | hz
      · exact hxy
      · exact candLE_trans x y z hxy (h.1 z hz)
    · rename_i hxy
      rw [List.pairwise_cons]
      refine ⟨?_, ih h.2⟩
      intro z hz
      rcases (mem_insertCand z x t).mp hz with he | hz
      · rw [he]
        exact candLE_total x y (by simpa using hxy)
      · exact h.1 z hz

theorem pairwise_sortCands (l : List Candidate) :
    (sortCands l).Pairwise (fun a b => candLE a b = true) := by
  induction l with
  | nil => exact List.Pairwise.nil
  | cons x t ih => exact pairwise_insertCand x (sortCands t) ih

/-! ### Priority facts -/

theorem collect_shape (day : String) (t : PyDate) (nodes : List DomNode)
    (c : Candidate) (h : c ∈ collect_candidates day t nodes) :
    c.priority = candPriority (fmtYmd t) c.dataDate c.isDisabled := by
  unfold collect_candidates at h
  rw [List.mem_filterMap] at h
  obtain ⟨n, _, hn⟩ := h
  by_cases hc : pyStripS n.txt = day
  · rw [if_pos hc] at hn
    cases hn
    rfl
  · rw [if_neg hc] at hn
    cases hn

theorem candPriority_cases (s dd : String) (dis : Bool) :
    (candPriority s dd dis = 100 ↔ dd = s) ∧
    (candPriority s dd dis = 90 ↔
      dd ≠ s ∧ dd ≠ "" ∧ hasSub (ymKey s) dd.data = true) ∧
    (candPriority s dd dis = 50 ↔
      dd ≠ s ∧ ¬(dd ≠ "" ∧ hasSub (ymKey s) dd.data = true) ∧ dis = false) ∧
    (candPriority s dd dis = 10 ↔
      dd ≠ s ∧ ¬(dd ≠ "" ∧ hasSub (ymKey s) dd.data = true) ∧ dis = true) := by
  unfold candPriority
  split_ifs with h1 h2 h3 <;> refine ⟨?_, ?_, ?_, ?_⟩ <;> simp_all

theorem candPriority_facts (s dd : String) (dis : Bool) :
    (candPriority s dd dis = 100 ∨ candPriority s dd dis = 90 ∨
     candPriority s dd dis = 50 ∨ candPriority s dd dis = 10) ∧
    (dis = false → candPriority s dd dis ≠ 10) ∧
    (dis = true → candPriority s dd dis ≠ 50) := by
  unfold candPriority
  split_ifs <;> simp_all

/-- The pairwise relation claimed for the click sequence: every exact-match
(priority-100) candidate precedes every other one, and equal priorities are
ordered by ascending container-relative offset. -/
def clickRel (c d : Candidate) : Prop :=
  (d.priority = 100 → c.priority = 100) ∧
  (c.priority = d.priority → c.top ≤ d.top)

theorem pairwise_clickRel_of_sorted (l : List Candidate)
    (hb : ∀ c ∈ l, c.priority ≤ 100)
    (hpw : l.Pairwise fun a b => candLE a b = true) :
    l.Pairwise clickRel := by
  refine List.Pairwise.imp_of_mem ?_ hpw
  intro a b ha hb'
  intro hR
  unfold candLE at hR
  simp only [Bool.or_eq_true, Bool.and_eq_true, decide_eq_true_eq] at hR
  have h1 := hb a ha
  have h2 := hb b hb'
  constructor
  · intro h100
    omega
  · intro heq
    omega

/-! ## C4 — candidate priorities and click ordering -/

/-- C4: every collected candidate's priority follows the 100/90/50/10 rule
(exact `data-date` match, year-month match, enabled, disabled — tested in
that order), and the click-attempt sequence `click_order` places every
priority-100 candidate before every lower-priority one, with equal-priority
candidates in ascending container-relative offset order. -/
theorem C4_priority_and_click_order (day : String) (t : PyDate) (nodes : List DomNode) :
    (∀ c ∈ collect_candidates day t nodes,
        (c.priority = 100 ↔ c.dataDate = fmtYmd t) ∧
        (c.priority = 90 ↔ c.dataDate ≠ fmtYmd t ∧ c.dataDate ≠ "" ∧
            hasSub (ymKey (fmtYmd t)) c.dataDate.data = true) ∧
        (c.priority = 50 ↔ c.dataDate ≠ fmtYmd t ∧
            ¬(c.dataDate ≠ "" ∧ hasSub (ymKey (fmtYmd t)) c.dataDate.data = true) ∧
            c.isDisabled = false) ∧
        (c.priority = 10 ↔ c.dataDate ≠ fmtYmd t ∧
            ¬(c.dataDate ≠ "" ∧ hasSub (ymKey (fmtYmd t)) c.dataDate.data = true) ∧
            c.isDisabled = true)) ∧
    (click_order (collect_candidates day t nodes)).Pairwise clickRel := by
  constructor
  · intro c hc
    rw [collect_shape day t nodes c hc]
    exact candPriority_cases (fmtYmd t) c.dataDate c.isDisabled
  · set L := collect_candidates day t nodes with hL
    have hco : click_order L = clickGroup1 (sortCands L) ++
        (clickGroup2 (sortCands L) ++ clickGroup3 (sortCands L)) := by
      unfold click_order
      rw [List.append_assoc]
    rw [hco]
    set S := sortCands L with hSdef
    set g1 := clickGroup1 S with hg1
    set g2 := clickGroup2 S with hg2
    set g3 := clickGroup3 S with hg3
    have hfacts : ∀ c ∈ S,
        (c.priority = 100 ∨ c.priority = 90 ∨ c.priority = 50 ∨ c.priority = 10) ∧
        (c.isDisabled = false → c.priority ≠ 10) ∧
        (c.isDisabled = true → c.priority ≠ 50) := by
      intro c hc
      have hmem : c ∈ L := (mem_sortCands c L).mp hc
      rw [collect_shape day t nodes c hmem]
      exact candPriority_facts (fmtYmd t) c.dataDate c.isDisabled
    have hble : ∀ c ∈ S, c.priority ≤ 100 := by
      intro c hc
      have := (hfacts c hc).1
      omega
    have hpwS := pairwise_sortCands L
    have hpw1 : g1.Pairwise clickRel :=
      pairwise_clickRel_of_sorted g1
        (fun c hc => hble c (List.mem_of_mem_filter hc))
        (hpwS.sublist (List.filter_sublist S))
    have hpw2 : g2.Pairwise clickRel :=
      pairwise_clickRel_of_sorted g2
        (fun c hc => hble c (List.mem_of_mem_filter hc))
        (hpwS.sublist (List.filter_sublist S))
    have hpw3 : g3.Pairwise clickRel :=
      pairwise_clickRel_of_sorted g3
        (fun c hc => hble c (List.mem_of_mem_filter hc))
        (hpwS.sublist (List.filter_sublist S))
    have hm1 : ∀ c ∈ g1, 90 ≤ c.priority := by
      intro c hc
      have := (List.mem_filter.mp hc).2
      simpa using this
    have hm2 : ∀ c ∈ g2, c.priority = 50 := by
      intro c hc
      obtain ⟨hcS, hcond⟩ := List.mem_filter.mp hc
      simp only [Bool.and_eq_true, Bool.not_eq_true', decide_eq_false_iff_not] at hcond
      obtain ⟨hdis, hnot1⟩ := hcond
      have hlt : ¬ 90 ≤ c.priority := by
        intro hge
        exact hnot1 (List.mem_filter.mpr ⟨hcS, by simpa using hge⟩)
      have hf := hfacts c hcS
      have := hf.2.1 hdis
      omega
    have hm3 : ∀ c ∈ g3, c.priority = 10 := by
      intro c hc
      obtain ⟨hcS, hcond⟩ := List.mem_filter.mp hc
      simp only [Bool.not_eq_true', decide_eq_false_iff_not, List.mem_append] at hcond
      push_neg at hcond
      obtain ⟨hnot1, hnot2⟩ := hcond
      have hlt : ¬ 90 ≤ c.priority := by
        intro hge
        exact hnot1 (List.mem_filter.mpr ⟨hcS, by simpa using hge⟩)
      have hdis : c.isDisabled = true := by
        cases hcd : c.isDisabled
        · exfalso
          apply hnot2
          refine List.mem_filter.mpr ⟨hcS, ?_⟩
          simp only [Bool.and_eq_true, Bool.not_eq_true', decide_eq_false_iff_not]
          exact ⟨hcd, fun hmem => hnot1 hmem⟩
        · rfl
      have hf := hfacts c hcS
      have := hf.2.2 hdis
      omega
    rw [List.pairwise_append]
    refine ⟨hpw1, ?_, ?_⟩
    · rw [List.pairwise_append]
      refine ⟨hpw2, hpw3, ?_⟩
      intro a ha b hb
      have h1 := hm2 a ha
      have h2 := hm3 b hb
      constructor
      · intro h100
        omega
      · intro heq
        omega
    · intro a ha b hb
      have h1 := hm1 a ha
      have h2 : b.priority = 50 ∨ b.priority = 10 := by
        rcases List.mem_append.mp hb with h | h
        · exact Or.inl (hm2 b h)
        · exact Or.inr (hm3 b h)
      constructor
      · intro h100
        omega
      · intro heq
        omega

/-- C4 witness: on a concrete two-node sidebar the exact-match candidate is
collected with priority 100 and the characterization instantiates. -/
theorem C4_priority_and_click_order_witness :
    (({ dataDate := "2025-10-12", cls := "", aria := "", title := "",
        top := 30, isDisabled := false, priority := 100 } : Candidate) ∈
      collect_candidates "12" { year := 2025, month := 10, day := 12 }
        [{ txt := "12", dataDate := "2025-10-12", className := "", aria := "",
           title := "", rectTop := 30, ariaDisabled := "" }]) ∧
    (({ dataDate := "2025-10-12", cls := "", aria := "", title := "",
        top := 30, isDisabled := false, priority := 100 } : Candidate).priority = 100 ↔
      ({ dataDate := "2025-10-12", cls := "", aria := "", title := "",
         top := 30, isDisabled := false, priority := 100 } : Candidate).dataDate =
        fmtYmd { year := 2025, month := 10, day := 12 }) :=
  ⟨by decide,
   ((C4_priority_and_click_order "12" { year := 2025, month := 10, day := 12 }
        [{ txt := "12", dataDate := "2025-10-12", className := "", aria := "",
           title := "", rectTop := 30, ariaDisabled := "" }]).1
      _ (by decide)).1⟩

/-! ## Settle detection (`wait_for_events_to_settle`, maa.py lines 964-989) -/

/-- One reading of the event list's structural signature. The injected JS
returns the pair `[scrollHeight, childCount]`; when the script raises, the
Python code substitutes the tuple `(0, 0)` — kept as a distinct constructor
because in Python a tuple never compares equal to a JS-returned list, not
even `(0, 0)` against `[0, 0]`. -/
inductive PollVal
  | page (h c : Int)
  | errPair
deriving DecidableEq

/-- Python `metrics == last`; `none` stands for the initial tuple
`(-1, -1)`, which no later reading compares equal to (list vs tuple, and
`(0, 0) != (-1, -1)`). -/
def pollMatches (last : Option PollVal) (m : PollVal) : Bool :=
  match last with
  | none => false
  | some l => decide (m = l)

/-- The poll loop of `wait_for_events_to_settle` over an explicit schedule:
`t k` is the clock at iteration `k` (relative to the loop's `t0`), `m k` the
signature read there, and `fuel` bounds the iterations inside the timeout
window (finite in reality, since every iteration sleeps 0.25 s). Returns
`false` when the while-condition fails, `true` once a signature has been
stable for the 0.8 s quiet period. Each iteration is modelled with a single
clock value, where the Python code reads the clock a few instructions
apart. -/
def settleFrom (timeout : ℚ) (t : ℕ → ℚ) (m : ℕ → PollVal) :
    ℕ → ℕ → Option ℚ → Option PollVal → Bool
  | 0, _, _, _ => false
  | fuel + 1, k, stableSince, last =>
    if t k < timeout then
      if pollMatches last (m k) then
        match stableSince with
        | none => settleFrom timeout t m fuel (k + 1) (some (t k)) last
        | some s =>
          if t k - s ≥ 4 / 5 then true
          else settleFrom timeout t m fuel (k + 1) (some s) last
      else settleFrom timeout t m fuel (k + 1) none (some (m k))
    else false

/-- Embedding of `wait_for_events_to_settle` as a function of the poll
schedule. -/
def wait_for_events_to_settle (timeout : ℚ) (fuel : ℕ) (t : ℕ → ℚ)
    (m : ℕ → PollVal) : Bool :=
  settleFrom timeout t m fuel 0 none none

theorem settleFrom_timeout (timeout : ℚ) (t : ℕ → ℚ) (m : ℕ → PollVal)
    (fuel k : ℕ) (ss : Option ℚ) (last : Option PollVal)
    (h : ¬ t k < timeout) :
    settleFrom timeout t m (fuel + 1) k ss last = false := by
  unfold settleFrom
  rw [if_neg h]

theorem settleFrom_matched_none (timeout : ℚ) (t : ℕ → ℚ) (m : ℕ → PollVal)
    (fuel k : ℕ) (last : Option PollVal)
    (h1 : t k < timeout) (h2 : pollMatches last (m k) = true) :
    settleFrom timeout t m (fuel + 1) k none last =
      settleFrom timeout t m fuel (k + 1) (some (t k)) last := by
  conv_lhs => unfold settleFrom
  rw [if_pos h1, h2]
  simp

theorem settleFrom_matched_quiet (timeout : ℚ) (t : ℕ → ℚ) (m : ℕ → PollVal)
    (fuel k : ℕ) (s : ℚ) (last : Option PollVal)
    (h1 : t k < timeout) (h2 : pollMatches last (m k) = true)
    (h3 : t k - s ≥ 4 / 5) :
    settleFrom timeout t m (fuel + 1) k (some s) last = true := by
  conv_lhs => unfold settleFrom
  rw [if_pos h1, h2]
  simp [h3]

theorem settleFrom_matched_wait (timeout : ℚ) (t : ℕ → ℚ) (m : ℕ → PollVal)
    (fuel k : ℕ) (s : ℚ) (last : Option PollVal)
    (h1 : t k < timeout) (h2 : pollMatches last (m k) = true)
    (h3 : ¬ t k - s ≥ 4 / 5) :
    settleFrom timeout t m (fuel + 1) k (some s) last =
      settleFrom timeout t m fuel (k + 1) (some s) last := by
  conv_lhs => unfold settleFrom
  rw [if_pos h1, h2]
  simp [h3]

theorem settleFrom_unmatched (timeout : ℚ) (t : ℕ → ℚ) (m : ℕ → PollVal)
    (fuel k : ℕ) (ss : Option ℚ) (last : Option PollVal)
    (h1 : t k < timeout) (h2 : pollMatches last (m k) = false) :
    settleFrom timeout t m (fuel + 1) k ss last =
      settleFrom timeout t m fuel (k + 1) none (some (m k)) := by
  conv_lhs => unfold settleFrom
  rw [if_pos h1, h2]
  simp

theorem settle_stable (timeout : ℚ) (t : ℕ → ℚ) (m : ℕ → PollVal)
    (last : Option PollVal) (s : ℚ) (j : ℕ) :
    ∀ fuel k, k ≤ j → j < k + fuel →
    (∀ x, k ≤ x → x ≤ j → t x < timeout) →
    (∀ x, k ≤ x → x ≤ j → pollMatches last (m x) = true) →
    t j - s ≥ 4 / 5 →
    settleFrom timeout t m fuel k (some s) last = true := by
  intro fuel
  induction fuel with
  | zero =>
    intro k hk hf _ _ _
    omega
  | succ fuel ih =>
    intro k hk hf htime hmatch hq
    by_cases hs : t k - s ≥ 4 / 5
    · exact settleFrom_matched_quiet timeout t m fuel k s last
        (htime k le_rfl hk) (hmatch k le_rfl hk) hs
    · rw [settleFrom_matched_wait timeout t m fuel k s last
        (htime k le_rfl hk) (hmatch k le_rfl hk) hs]
      have hkj : k ≠ j := by
        intro he
        rw [he] at hs
        exact hs hq
      exact ih (k + 1) (by omega) (by omega)
        (fun x hx1 hx2 => htime x (by omega) hx2)
        (fun x hx1 hx2 => hmatch x (by omega) hx2) hq

theorem settle_run (timeout : ℚ) (t : ℕ → ℚ) (m : ℕ → PollVal)
    (last : Option PollVal) (j : ℕ) :
    ∀ fuel k, k ≤ j → j < k + fuel →
    (∀ x, k ≤ x → x ≤ j → t x < timeout) →
    (∀ x, k ≤ x → x ≤ j → pollMatches last (m x) = true) →
    t j - t k ≥ 4 / 5 →
    settleFrom timeout t m fuel k none last = true := by
  intro fuel k hk hf htime hmatch hq
  cases fuel with
  | zero => omega
  | succ fuel =>
    rw [settleFrom_matched_none timeout t m fuel k last
      (htime k le_rfl hk) (hmatch k le_rfl hk)]
    have hkj : k ≠ j := by
      intro he
      rw [he] at hq
      simp at hq
      linarith
    exact settle_stable timeout t m last (t k) j fuel (k + 1) (by omega) (by omega)
      (fun x hx1 hx2 => htime x (by omega) hx2)
      (fun x hx1 hx2 => hmatch x (by omega) hx2) hq

theorem settle_reaches_run (timeout : ℚ) (t : ℕ → ℚ) (m : ℕ → PollVal)
    (i j : ℕ) (hij : i < j)
    (hmono : ∀ a b : ℕ, a ≤ b → t a ≤ t b)
    (hconst : ∀ x, i ≤ x → x ≤ j → m x = m i)
    (hq : t j - t (i + 1) ≥ 4 / 5) :
    ∀ fuel k (ss : Option ℚ) (last : Option PollVal), k ≤ i → j < k + fuel →
    (∀ x, k ≤ x → x ≤ j → t x < timeout) →
    (∀ s, ss = some s → s ≤ t k) →
    settleFrom timeout t m fuel k ss last = true := by
  intro fuel
  induction fuel with
  | zero =>
    intro k ss last hk hf _ _
    omega
  | succ fuel ih =>
    intro k ss last hk hf htime hinv
    have ht0 : t k < timeout := htime k (by omega) (by omega)
    by_cases hm : pollMatches last (m k) = true
    · by_cases hki : k = i
      · subst hki
        cases ss with
        | none =>
          rw [settleFrom_matched_none timeout t m fuel k last ht0 hm]
          exact settle_stable timeout t m last (t k) j fuel (k + 1) (by omega)
            (by omega)
            (fun x hx1 hx2 => htime x (by omega) hx2)
            (fun x hx1 hx2 => by
              rw [show m x = m k from hconst x (by omega) hx2]
              exact hm)
            (by have h1 := hmono k (k + 1) (by omega); linarith)
        | some s =>
          by_cases hs : t k - s ≥ 4 / 5
          · exact settleFrom_matched_quiet timeout t m fuel k s last ht0 hm hs
          · rw [settleFrom_matched_wait timeout t m fuel k s last ht0 hm hs]
            have hsk : s ≤ t k := hinv s rfl
            have hkk1 : t k ≤ t (k + 1) := hmono k (k + 1) (by omega)
            exact settle_stable timeout t m last s j fuel (k + 1) (by omega)
              (by omega)
              (fun x hx1 hx2 => htime x (by omega) hx2)
              (fun x hx1 hx2 => by
                rw [show m x = m k from hconst x (by omega) hx2]
                exact hm)
              (by linarith)
      · cases ss with
        | none =>
          rw [settleFrom_matched_none timeout t m fuel k last ht0 hm]
          exact ih (k + 1) (some (t k)) last (by omega) (by omega)
            (fun x hx1 hx2 => htime x (by omega) hx2)
            (fun s hs => by
              cases hs
              exact hmono k (k + 1) (by omega))
        | some s =>
          by_cases hs : t k - s ≥ 4 / 5
          · exact settleFrom_matched_quiet timeout t m fuel k s last ht0 hm hs
          · rw [settleFrom_matched_wait timeout t m fuel k s last ht0 hm hs]
            exact ih (k + 1) (some s) last (by omega) (by omega)
              (fun x hx1 hx2 => htime x (by omega) hx2)
              (fun s' hs' => by
                cases hs'
                exact le_trans (hinv s rfl) (hmono k (k + 1) (by omega)))
    · rw [Bool.not_eq_true] at hm
      rw [settleFrom_unmatched timeout t m fuel k ss last ht0 hm]
      by_cases hki : k = i
      · subst hki
        have hq' : t j - t (k + 1) ≥ 4 / 5 := hq
        refine settle_run timeout t m (some (m k)) j fuel (k + 1) ?_ (by omega)
          (fun x hx1 hx2 => htime x (by omega) hx2)
          (fun x hx1 hx2 => ?_) hq'
        · by_contra hc
          have hjk : j ≤ k := by omega
          omega
        · simp only [pollMatches, decide_eq_true_eq]
          exact hconst x (by omega) hx2
      · exact ih (k + 1) none (some (m k)) (by omega) (by omega)
          (fun x hx1 hx2 => htime x (by omega) hx2)
          (fun s hs => by cases hs)

theorem settle_allchanging (timeout : ℚ) (t : ℕ → ℚ) (m : ℕ → PollVal)
    (hne : ∀ k, m (k + 1) ≠ m k) :
    ∀ fuel k, settleFrom timeout t m fuel (k + 1) none (some (m k)) = false := by
  intro fuel
  induction fuel with
  | zero => intro k; rfl
  | succ fuel ih =>
    intro k
    by_cases ht : t (k + 1) < timeout
    · have hf : pollMatches (some (m k)) (m (k + 1)) = false := by
        simp only [pollMatches, decide_eq_false_iff_not]
        exact hne k
      rw [settleFrom_unmatched timeout t m fuel (k + 1) none (some (m k)) ht hf]
      exact ih (k + 1)
    · exact settleFrom_timeout timeout t m fuel (k + 1) none (some (m k)) ht

/-! ## C6 — the settle detector -/

/-- C6: the settle detector returns true whenever the list signature holds a
constant value over a poll run spanning at least the 0.8-second quiet period
inside the timeout window; and it returns false when the signature differs
on every consecutive pair of polls, whatever the timing. (The quiet period
is measured from the poll at which the loop first records stability — the
second reading of the constant run.) -/
theorem C6_settle_detector (timeout : ℚ) (fuel : ℕ) (t : ℕ → ℚ) (m : ℕ → PollVal) :
    (∀ i j : ℕ, i < j → j < fuel →
       (∀ a b : ℕ, a ≤ b → t a ≤ t b) →
       (∀ x, x ≤ j → t x < timeout) →
       (∀ x, i ≤ x → x ≤ j → m x = m i) →
       t j - t (i + 1) ≥ 4 / 5 →
       wait_for_events_to_settle timeout fuel t m = true) ∧
    ((∀ k, m (k + 1) ≠ m k) →
       wait_for_events_to_settle timeout fuel t m = false) := by
  constructor
  · intro i j hij hjf hmono htime hconst hq
    exact settle_reaches_run timeout t m i j hij hmono hconst hq fuel 0 none none
      (by omega) (by omega) (fun x _ hx2 => htime x hx2) (fun s hs => by cases hs)
  · intro hne
    unfold wait_for_events_to_settle
    cases fuel with
    | zero => rfl
    | succ fuel =>
      by_cases ht : t 0 < timeout
      · rw [settleFrom_unmatched timeout t m fuel 0 none none ht rfl]
        exact settle_allchanging timeout t m hne fuel 0
      · exact settleFrom_timeout timeout t m fuel 0 none none ht

/-- C6 witness: a schedule polling once per second that becomes constant
settles (run from poll 0 to poll 2 spans 1 s ≥ 0.8 s), and a schedule whose
signature alternates every poll never settles. -/
theorem C6_settle_detector_witness :
    wait_for_events_to_settle 100 4 (fun k => (k : ℚ)) (fun _ => PollVal.page 5 2) = true ∧
    wait_for_events_to_settle 100 4 (fun k => (k : ℚ))
      (fun k => if k % 2 = 0 then PollVal.page 0 0 else PollVal.page 1 1) = false :=
  ⟨(C6_settle_detector 100 4 (fun k => (k : ℚ)) (fun _ => PollVal.page 5 2)).1 0 2
      (by omega) (by omega)
      (fun a b hab => by exact_mod_cast hab)
      (fun x hx => by
        have : (x : ℚ) ≤ 2 := by exact_mod_cast hx
        linarith)
      (fun x _ _ => rfl)
      (by norm_num),
   (C6_settle_detector 100 4 (fun k => (k : ℚ)) _).2
      (fun k => by
        by_cases h : k % 2 = 0
        · have h1 : (k + 1) % 2 = 1 := by omega
          simp [h, h1]
        · have h0 : (k + 1) % 2 = 0 := by omega
          simp [h, h0])⟩

/-! ## Month navigation (maa.py lines 741-754 and 830-843) -/

inductive NavDir
  | next
  | prev
deriving DecidableEq

/-- Direction computation of the navigation loop:
`'next' if target_month_index > shown_month_index else 'prev'`. -/
def navDirFor (shown target : Int) : NavDir :=
  if target > shown then NavDir.next else NavDir.prev

/-- The bounded month-navigation while-loop shared by
`click_calendar_date_fast` and `click_calendar_date_robust`: `shown k` is
the month index read after `k` successful navigation clicks
(`get_shown_month_index` never fails — it falls back to today's month), and
`stepOk k d` says whether the attempted click on the `k`-th iteration
(`_click_sidebar_prev_next_once`, which returns false on any exception)
found a control. `fuel` is the remaining step budget (`MAX_NAV - nav_count`);
the function returns the final `nav_count`. All failure modes are values,
so the loop cannot raise. -/
def navLoopFrom (target : Int) (shown : ℕ → Int) (stepOk : ℕ → NavDir → Bool) :
    ℕ → ℕ → ℕ
  | 0, count => count
  | fuel + 1, count =>
    if shown count = target then count
    else if stepOk count (navDirFor (shown count) target) then
      navLoopFrom target shown stepOk fuel (count + 1)
    else count

/-- The navigation loop as run by the code: budget `MAX_NAV = 24`, starting
from zero issued steps. -/
def navSteps (target : Int) (shown : ℕ → Int) (stepOk : ℕ → NavDir → Bool) : ℕ :=
  navLoopFrom target shown stepOk 24 0

theorem navLoopFrom_le (target : Int) (shown : ℕ → Int) (stepOk : ℕ → NavDir → Bool) :
    ∀ fuel count, navLoopFrom target shown stepOk fuel count ≤ fuel + count := by
  intro fuel
  induction fuel with
  | zero => intro count; simp [navLoopFrom]
  | succ fuel ih =>
    intro count
    unfold navLoopFrom
    split
    · omega
    · split
      · have := ih (count + 1)
        omega
      · omega

theorem navLoopFrom_exit (target : Int) (shown : ℕ → Int) (stepOk : ℕ → NavDir → Bool)
    (maxNav : ℕ) :
    ∀ fuel count, fuel + count = maxNav →
      (shown (navLoopFrom target shown stepOk fuel count) = target ∨
       navLoopFrom target shown stepOk fuel count = maxNav ∨
       stepOk (navLoopFrom target shown stepOk fuel count)
         (navDirFor (shown (navLoopFrom target shown stepOk fuel count)) target) = false) := by
  intro fuel
  induction fuel with
  | zero =>
    intro count h
    simp only [navLoopFrom]
    omega
  | succ fuel ih =>
    intro count h
    unfold navLoopFrom
    split
    · rename_i hsh
      exact Or.inl hsh
    · split
      · exact ih (count + 1) (by omega)
      · rename_i hstep
        exact Or.inr (Or.inr (by simpa using hstep))

/-! ## C7 — month navigation termination -/

/-- C7: for every displayed-month oracle and step oracle, the navigation
loop issues at most 24 steps, issues none when the displayed month already
equals the target, issues none when no navigation control can be found
(returning normally — every failure is a value in the model, never an
exception), and on exit either the displayed month equals the target, or
the 24-step budget is exhausted, or the last attempted step failed. -/
theorem C7_navigation_bounded (target : Int) (shown : ℕ → Int)
    (stepOk : ℕ → NavDir → Bool) :
    navSteps target shown stepOk ≤ 24 ∧
    (shown 0 = target → navSteps target shown stepOk = 0) ∧
    ((∀ k d, stepOk k d = false) → navSteps target shown stepOk = 0) ∧
    (shown (navSteps target shown stepOk) = target ∨
     navSteps target shown stepOk = 24 ∨
     stepOk (navSteps target shown stepOk)
       (navDirFor (shown (navSteps target shown stepOk)) target) = false) := by
  refine ⟨?_, ?_, ?_, ?_⟩
  · have := navLoopFrom_le target shown stepOk 24 0
    simpa [navSteps] using this
  · intro h
    unfold navSteps navLoopFrom
    rw [if_pos h]
  · intro h
    unfold navSteps navLoopFrom
    split
    · rfl
    · rw [h 0 (navDirFor (shown 0) target)]
      simp
  · exact navLoopFrom_exit target shown stepOk 24 24 0 rfl

/-- C7 witness: with the displayed month already equal to the target no step
is issued, and with no navigation control ever found no step is issued
either. -/
theorem C7_navigation_bounded_witness :
    navSteps 5 (fun _ => 5) (fun _ _ => true) = 0 ∧
    navSteps 7 (fun _ => 5) (fun _ _ => false) = 0 :=
  ⟨(C7_navigation_bounded 5 (fun _ => 5) (fun _ _ => true)).2.1 rfl,
   (C7_navigation_bounded 7 (fun _ => 5) (fun _ _ => false)).2.2.1 (fun _ _ => rfl)⟩

/-! ## Absentee row processing (`process_one_absentee`, maa.py lines 1439-1474) -/

/-- What one iteration of the per-student loop observes: no cell found for
the identifier, a cell whose row has no checkbox, a checkbox with its
current selected state, or an exception from the lookup (caught by the
loop, which continues). -/
inductive LookupRes
  | noCell
  | noCheckbox
  | checkbox (selected : Bool)
  | raised
deriving DecidableEq

/-- A click issued on a row checkbox, recording the selected state read just
before the click. -/
structure ClickEv where
  wasSelected : Bool
deriving DecidableEq

/-- The per-student while-loop over an explicit schedule of iterations: each
entry holds the clock at the while-test (relative to `t0`) and what the
lookups produced there. `noCell`/`noCheckbox` scroll the table and continue;
`raised` is caught and continues; a resolved checkbox ends the loop — it is
clicked (`js_click`, recorded in the click list) and `some true` returned
only when `is_selected()` holds, otherwise it is left untouched and
`some false` returned. Budget expiry (head time at or past
`PER_STUDENT_MAX_SECONDS = 5`, or the finite schedule running out) yields
`none` — the NotFound outcome. -/
def process_one_absentee (budget : ℚ) :
    List (ℚ × LookupRes) → List ClickEv → Option Bool × List ClickEv
  | [], clicks => (none, clicks)
  | (t, r) :: rest, clicks =>
    if t < budget then
      match r with
      | LookupRes.noCell => process_one_absentee budget rest clicks
      | LookupRes.noCheckbox => process_one_absentee budget rest clicks
      | LookupRes.raised => process_one_absentee budget rest clicks
      | LookupRes.checkbox sel =>
        if sel then (some true, clicks ++ [{ wasSelected := sel }])
        else (some false, clicks)
    else (none, clicks)

/-- The absentee batch loop of `main` (lines 1465-1474): `res ab` is what
`process_one_absentee(ab)` returned; `some true` goes to `unticked_ids`,
`none` to `not_found`, `some false` is only reported. -/
def runAbsentees (res : String → Option Bool) :
    List String → List String × List String
  | [] => ([], [])
  | ab :: rest =>
    let acc := runAbsentees res rest
    match res ab with
    | some true => (ab :: acc.1, acc.2)
    | some false => acc
    | none => (acc.1, ab :: acc.2)

theorem process_one_absentee_all_noCell (budget : ℚ) :
    ∀ (polls : List (ℚ × LookupRes)) (clicks : List ClickEv),
      (∀ p ∈ polls, p.2 = LookupRes.noCell) →
      process_one_absentee budget polls clicks = (none, clicks) := by
  intro polls
  induction polls with
  | nil => intro clicks _; rfl
  | cons p rest ih =>
    intro clicks h
    obtain ⟨t, r⟩ := p
    have hr : r = LookupRes.noCell := h (t, r) (List.mem_cons_self _ _)
    subst hr
    unfold process_one_absentee
    split
    · exact ih clicks (fun q hq => h q (List.mem_cons_of_mem _ hq))
    · rfl

theorem runAbsentees_filters (res : String → Option Bool) :
    ∀ ids : List String,
      (runAbsentees res ids).1 = ids.filter (fun i => decide (res i = some true)) ∧
      (runAbsentees res ids).2 = ids.filter (fun i => decide (res i = none)) := by
  intro ids
  induction ids with
  | nil => exact ⟨rfl, rfl⟩
  | cons ab rest ih =>
    unfold runAbsentees
    cases hr : res ab with
    | none => simp [List.filter_cons, hr, ih.1, ih.2]
    | some b =>
      cases b
      · simp [List.filter_cons, hr, ih.1, ih.2]
      · simp [List.filter_cons, hr, ih.1, ih.2]

/-! ## C8 — absent identifiers yield NotFound without stopping the batch -/

/-- C8: when the identifier is absent from the table (every poll inside the
5-second budget finds no cell), the row processor returns the NotFound value
(`None`) without raising; and in the batch, the not-found list is exactly
the identifiers whose processing returned NotFound while the unticked list
is exactly those that returned `True` — every identifier is processed, so
one failure never stops the rest. -/
theorem C8_notfound_and_batch :
    (∀ (budget : ℚ) (polls : List (ℚ × LookupRes)),
       (∀ p ∈ polls, p.2 = LookupRes.noCell) →
       (process_one_absentee budget polls []).1 = none) ∧
    (∀ (res : String → Option Bool) (ids : List String),
       (runAbsentees res ids).2 = ids.filter (fun i => decide (res i = none)) ∧
       (runAbsentees res ids).1 = ids.filter (fun i => decide (res i = some true))) ∧
    (∀ (res : String → Option Bool) (ids : List String) (ab : String),
       ab ∈ ids → res ab = none → ab ∈ (runAbsentees res ids).2) := by
  refine ⟨?_, ?_, ?_⟩
  · intro budget polls h
    rw [process_one_absentee_all_noCell budget polls [] h]
  · intro res ids
    exact ⟨(runAbsentees_filters res ids).2, (runAbsentees_filters res ids).1⟩
  · intro res ids ab hmem hres
    rw [(runAbsentees_filters res ids).2]
    exact List.mem_filter.mpr ⟨hmem, by simp [hres]⟩

/-- C8 witness: a concrete absent identifier (two polls, no cell found)
returns NotFound, and lands in the not-found list of a concrete batch. -/
theorem C8_notfound_and_batch_witness :
    (process_one_absentee 5 [(1, LookupRes.noCell), (2, LookupRes.noCell)] []).1 = none ∧
    ("A" ∈ (runAbsentees (fun i => if i = "A" then none else some true) ["A", "B"]).2) :=
  ⟨C8_notfound_and_batch.1 5 [(1, LookupRes.noCell), (2, LookupRes.noCell)]
     (by intro p hp
         rcases List.mem_cons.mp hp with h | h
         · rw [h]
         · rcases List.mem_cons.mp h with h2 | h2
           · rw [h2]
           · cases h2),
   C8_notfound_and_batch.2.2 (fun i => if i = "A" then none else some true)
     ["A", "B"] "A" (by decide) (by decide)⟩

/-! ## C10 — checkboxes are only ever unticked -/

theorem process_one_absentee_clicks (budget : ℚ) :
    ∀ (polls : List (ℚ × LookupRes)) (clicks : List ClickEv),
      (∀ e ∈ clicks, e.wasSelected = true) →
      (∀ e ∈ (process_one_absentee budget polls clicks).2, e.wasSelected = true) ∧
      ((process_one_absentee budget polls clicks).1 = some false →
        (process_one_absentee budget polls clicks).2 = clicks) := by
  intro polls
  induction polls with
  | nil =>
    intro clicks h
    exact ⟨h, fun _ => rfl⟩
  | cons p rest ih =>
    intro clicks h
    obtain ⟨t, r⟩ := p
    unfold process_one_absentee
    split
    · cases r with
      | noCell => exact ih clicks h
      | noCheckbox => exact ih clicks h
      | raised => exact ih clicks h
      | checkbox sel =>
        cases sel
        · simp only
          exact ⟨h, fun _ => rfl⟩
        · simp only
          refine ⟨?_, ?_⟩
          · intro e he
            rcases List.mem_append.mp he with he | he
            · exact h e he
            · rcases List.mem_singleton.mp he with rfl
              rfl
          · intro hfalse
            cases hfalse
    · exact ⟨h, fun _ => rfl⟩

/-- C10: the row processor clicks a checkbox only when that checkbox is
currently selected — every click recorded carries a prior selected state of
true, and an AlreadyAbsent outcome (`some false`) is produced with no click
at all. The processor can therefore only change checkboxes from checked to
unchecked, never the other way. -/
theorem C10_unticks_only (budget : ℚ) (polls : List (ℚ × LookupRes)) :
    (∀ e ∈ (process_one_absentee budget polls []).2, e.wasSelected = true) ∧
    ((process_one_absentee budget polls []).1 = some false →
      (process_one_absentee budget polls []).2 = []) :=
  process_one_absentee_clicks budget polls [] (fun e he => absurd he (List.not_mem_nil e))

/-- C10 witness: a checked checkbox produces exactly one click with prior
state selected; an unchecked one produces the AlreadyAbsent outcome with no
click. -/
theorem C10_unticks_only_witness :
    (({ wasSelected := true } : ClickEv).wasSelected = true) ∧
    (process_one_absentee 5 [(0, LookupRes.checkbox false)] []).2 = [] :=
  ⟨(C10_unticks_only 5 [(0, LookupRes.checkbox true)]).1 { wasSelected := true } (by decide),
   (C10_unticks_only 5 [(0, LookupRes.checkbox false)]).2 (by decide)⟩

/-! ## Subject details validation and process exit (maa.py lines 167-185,
1078-1159, 1542-1558) -/

/-- Python `str.split(sep)` for a non-empty separator, fuel-bounded
(`fuel = length` suffices since each step consumes at least one
character). -/
def splitOnSubAux (sep : List Char) : Nat → List Char → List Char → List (List Char)
  | _, acc, [] => [acc.reverse]
  | 0, acc, l => [acc.reverse ++ l]
  | fuel + 1, acc, c :: t =>
    if sep.isPrefixOf (c :: t) then
      acc.reverse :: splitOnSubAux sep fuel [] ((c :: t).drop sep.length)
    else
      splitOnSubAux sep fuel (c :: acc) t

def pySplitOn (sep l : List Char) : List (List Char) :=
  splitOnSubAux sep l.length [] l

/-- Python `str.replace(old, new)` for a non-empty `old`, fuel-bounded. -/
def replaceSubAux (old new : List Char) : Nat → List Char → List Char
  | _, [] => []
  | 0, l => l
  | fuel + 1, c :: t =>
    if old.isPrefixOf (c :: t) then
      new ++ replaceSubAux old new fuel ((c :: t).drop old.length)
    else c :: replaceSubAux old new fuel t

def pyReplace (old new l : List Char) : List Char :=
  replaceSubAux old new l.length l

/-- Embedding of `parse_subject_details`: strip the raw record (NFC
normalization is the identity on the ASCII inputs modelled), split on `::`
when present and otherwise on `|` after rewriting `^|` to `|`, pad to five
fields, strip each, and fail when course code, semester or class section is
blank. The error payload is summarised to a fixed message (the Python text
enumerates the missing fields; only ok/error matters to callers). -/
def parse_subject_details (details : String) :
    Except String (String × String × String × String × String) :=
  let raw := pyStrip details.data
  if raw = [] then Except.error "empty subject details"
  else
    let parts :=
      if hasSub "::".data raw then pySplitOn "::".data raw
      else pySplitOn "|".data (pyReplace "^|".data "|".data raw)
    let fieldAt : Nat → String := fun i => ⟨pyStrip (parts.getD i [])⟩
    let course_name := fieldAt 0
    let course_code := fieldAt 1
    let semester := fieldAt 2
    let class_section := fieldAt 3
    let session_no := fieldAt 4
    if course_code = "" ∨ semester = "" ∨ class_section = "" then
      Except.error "missing required fields"
    else
      Except.ok (course_name, course_code, semester, class_section, session_no)

/-- Exit-code skeleton of `main` and the module entry point: `argv` is
`sys.argv` (script name included), `dateParses` abstracts `parse_date_any`
(whose pandas-backed parsing is outside this model) and `automationFails`
says whether the browser-driving body — the big `try` of `main`: the
date-click fallback chain, event-tile search, row processing, submission —
raised. `parse_arguments` exits 1 on fewer than four arguments; an
unparsable date or invalid subject details exit 1; every exception inside
the `try` is caught at line 1542, printed together with a traceback, and
after the `finally` teardown the function returns normally — exit code 0,
regardless of `automationFails`. -/
def mainExitCode (argv : List String) (dateParses automationFails : Bool) : Nat :=
  if argv.length < 5 then 1
  else if !dateParses then 1
  else
    match parse_subject_details (argv.getD 4 "") with
    | Except.error _ => 1
    | Except.ok _ => 0

/-! ## C2 — process exit codes -/

/-- C2 (counterexample): a run with valid arguments whose automation body
fails unrecoverably (tile not found, chain exhausted, or submission failure
all raise into the handler at line 1542) still exits with code 0, against
the claim that every unrecoverable resolution failure exits non-zero. -/
theorem C2_exit_code_counterexample :
    mainExitCode ["maa.py", "2025-10-12", "wb.xlsx", "123", "OS::CSE 3123::V::B::4"]
      true true = 0 := by
  decide

/-- C2 (amended): the process exits 0 exactly when the argument/validation
stage passes — enough arguments, a parsable date, and valid subject
details; argument and validation errors exit 1, but unrecoverable
resolution failures during the automation body are caught and reported and
the process still exits 0. -/
theorem C2_exit_code_amended (argv : List String) (dateParses automationFails : Bool) :
    mainExitCode argv dateParses automationFails = 0 ↔
      (5 ≤ argv.length ∧ dateParses = true ∧
       ∃ v, parse_subject_details (argv.getD 4 "") = Except.ok v) := by
  unfold mainExitCode
  rcases Nat.lt_or_ge argv.length 5 with h1 | h1
  · rw [if_pos h1]
    constructor
    · intro h
      exact absurd h one_ne_zero
    · rintro ⟨hlen, -, -⟩
      omega
  · rw [if_neg (by omega : ¬ argv.length < 5)]
    cases dateParses
    · rw [if_pos (by simp : (!false) = true)]
      constructor
      · intro h
        exact absurd h one_ne_zero
      · rintro ⟨-, hd, -⟩
        simp at hd
    · rw [if_neg (by simp : ¬ (!true) = true)]
      rcases hp : parse_subject_details (argv.getD 4 "") with e | v
      · constructor
        · intro h
          exact absurd h one_ne_zero
        · rintro ⟨-, -, v, hv⟩
          exact absurd hv (by simp)
      · constructor
        · intro _
          exact ⟨by omega, rfl, v, rfl⟩
        · intro _
          rfl

/-! ## Panel verification (`panel_opened_ok`, maa.py lines 476-616) -/

/-- Zeller's congruence: day of week with 0 = Saturday, 1 = Sunday, … (the
computation behind strftime `%A`). -/
def dayOfWeek (y m d : Nat) : Nat :=
  let m' := if m < 3 then m + 12 else m
  let y' := if m < 3 then y - 1 else y
  let K := y' % 100
  let J := y' / 100
  (d + (13 * (m' + 1)) / 5 + K + K / 4 + J / 4 + 5 * J) % 7

/-- strftime `%A`: full English weekday name. -/
def weekdayNameFor (dt : PyDate) : String :=
  match dayOfWeek dt.year dt.month dt.day with
  | 0 => "Saturday"
  | 1 => "Sunday"
  | 2 => "Monday"
  | 3 => "Tuesday"
  | 4 => "Wednesday"
  | 5 => "Thursday"
  | _ => "Friday"

/-- Order-preserving deduplication (the `seen` set of
`day_header_strings`). -/
def dedupAux : List String → List String → List String
  | [], _ => []
  | s :: t, seen =>
    if seen.contains s then dedupAux t seen else s :: dedupAux t (s :: seen)

/-- `_norm` of maa.py: collapse whitespace runs. -/
def normS (s : String) : String := ⟨pyNorm s⟩

/-- Embedding of `day_header_strings` on the non-Windows branch: the
`"%A, %B %-d"` form (day unpadded) and the fallback `"%A, %B %d"` form
post-processed with `lstrip("0")` and `replace(", 0", ", ")` (the replace
never fires, since the only `", "` in the string follows the weekday name),
normalized and deduplicated in order. -/
def day_header_strings (dt : PyDate) : List String :=
  let a := weekdayNameFor dt ++ ", " ++ monthName dt.month ++ " " ++ natStr dt.day
  let bRaw := weekdayNameFor dt ++ ", " ++ monthName dt.month ++ " " ++ pad2 dt.day
  let b : String := ⟨pyReplace ", 0".data ", ".data (bRaw.data.dropWhile (fun c => c = '0'))⟩
  dedupAux [normS a, normS b] []

/-- Oracle for every external call `panel_opened_ok` makes, in source order;
nodes are abstract ids, and `Except Unit` marks the calls that can raise
(each is guarded by a `try` in the Python code, as replayed in the
embedding below). -/
structure PanelOracle where
  lastClicked : Except Unit (Option String)
  panelCandidate : Except Unit (Option Nat)
  hasEvRaw : Nat → Except Unit Bool
  nearby : Nat → Except Unit (Option Nat)
  foundViaAria : Except Unit (Option Nat)
  findDayPanel : Except Unit (Option Nat)
  headers : Except Unit (List Nat)
  headerText : Nat → Except Unit String

/-- Python `try: v = call() except: v = fallback`. -/
def tryOr {α : Type} (fallback : α) (x : Except Unit α) : α :=
  match x with
  | Except.ok v => v
  | Except.error _ => fallback

/-- `_has_event_list`: both of its branches guard their queries and return
False on any exception. -/
def _has_event_list (o : PanelOracle) (n : Nat) : Bool :=
  tryOr false (o.hasEvRaw n)

/-- Embedding of `panel_opened_ok`. Stage 1 (marker-based, lines 499-578):
resolve the last-clicked marker (`None` on failure), then try the
`data-date` panel candidate, its nearest container, and an aria/title scan,
each contributing True only when the resolved node holds an event list;
every query is individually guarded, and the stage's outer `try` absorbs
anything else. Stage 2 (lines 580-592): header-based panel detection — when
`find_day_panel_for_date` returns a panel the code returns True whether or
not the event sub-list lookup succeeds (its `except` also returns True).
Stage 3 (lines 594-613): relaxed scan of `h1/h2/h3` headings for the
expected day-header strings; a text match returns True whether or not the
sibling-container lookup succeeds. Otherwise False. -/
def panel_opened_ok (o : PanelOracle) (target : PyDate) : Bool :=
  let lastClicked := tryOr none o.lastClicked
  let stage1 : Bool :=
    match lastClicked with
    | some lc =>
      if lc ≠ "" then
        let pc := tryOr none o.panelCandidate
        if (match pc with
            | some n => _has_event_list o n
            | none => false) then true
        else
          let viaNearby : Bool :=
            match pc with
            | some n =>
              match o.nearby n with
              | Except.ok (some nb) => _has_event_list o nb
              | _ => false
            | none => false
          if viaNearby then true
          else
            match o.foundViaAria with
            | Except.ok (some n) => _has_event_list o n
            | _ => false
      else false
    | none => false
  if stage1 then true
  else
    let stage2 : Bool :=
      match o.findDayPanel with
      | Except.ok (some _) => true
      | _ => false
    if stage2 then true
    else
      match o.headers with
      | Except.error _ => false
      | Except.ok hs =>
        let expected := (day_header_strings target).map lowS
        hs.any fun h =>
          match o.headerText h with
          | Except.error _ => false
          | Except.ok txt =>
            expected.any fun e => hasSub e.data (lowS (normS txt)).data

/-- The oracle on which every external call raises. -/
def failingOracle : PanelOracle where
  lastClicked := Except.error ()
  panelCandidate := Except.error ()
  hasEvRaw := fun _ => Except.error ()
  nearby := fun _ => Except.error ()
  foundViaAria := Except.error ()
  findDayPanel := Except.error ()
  headers := Except.error ()
  headerText := fun _ => Except.error ()

/-- The candidate try-loop of `click_calendar_date_fast` (lines 776-794)
around the verifier: click each candidate in order; on click success run
`panel_opened_ok`; a true verdict ends the chain with that candidate, a
false verdict merely moves on to the next candidate. (`MAX_TRIES =
max(6, 2·len)` never binds, since the loop body runs once per candidate.) -/
def tryCandidates (clickOk verify : Nat → Bool) : Nat → Nat → Option Nat
  | 0, _ => none
  | rem + 1, idx =>
    if clickOk idx then
      if verify idx then some idx
      else tryCandidates clickOk verify rem (idx + 1)
    else tryCandidates clickOk verify rem (idx + 1)

def tryChain (clickOk verify : Nat → Bool) (n : Nat) : Option Nat :=
  tryCandidates clickOk verify n 0

theorem tryCandidates_none_iff (clickOk verify : Nat → Bool) :
    ∀ rem idx, tryCandidates clickOk verify rem idx = none ↔
      ∀ k, idx ≤ k → k < idx + rem → ¬(clickOk k = true ∧ verify k = true) := by
  intro rem
  induction rem with
  | zero =>
    intro idx
    constructor
    · intro _ k hk1 hk2
      omega
    · intro _
      rfl
  | succ rem ih =>
    intro idx
    unfold tryCandidates
    by_cases hc : clickOk idx = true
    · rw [if_pos hc]
      by_cases hv : verify idx = true
      · rw [if_pos hv]
        constructor
        · intro h
          cases h
        · intro h
          exact absurd ⟨hc, hv⟩ (h idx le_rfl (by omega))
      · rw [if_neg hv]
        rw [ih (idx + 1)]
        constructor
        · intro h k hk1 hk2
          by_cases hki : k = idx
          · subst hki
            rintro ⟨-, hvk⟩
            exact hv hvk
          · exact h k (by omega) (by omega)
        · intro h k hk1 hk2
          exact h k (by omega) (by omega)
    · rw [if_neg hc]
      rw [ih (idx + 1)]
      constructor
      · intro h k hk1 hk2
        by_cases hki : k = idx
        · subst hki
          rintro ⟨hck, -⟩
          exact hc hck
        · exact h k (by omega) (by omega)
      · intro h k hk1 hk2
        exact h k (by omega) (by omega)

/-! ## C9 — the panel verifier is total and false only continues the chain -/

/-- C9: `panel_opened_ok` always returns a boolean, never propagating an
exception: in the embedding every raising call is a value the function
absorbs — in particular, even when every external call raises (the marker
fetch, the panel searches, the header scans), the verifier returns false.
And a false verdict merely lets the click loop continue: the candidate
chain returns no pick exactly when no clicked candidate was verified, so no
single false verdict aborts the loop. -/
theorem C9_panel_verifier_total :
    (∀ (o : PanelOracle) (d : PyDate),
       o.lastClicked = Except.error () →
       o.findDayPanel = Except.error () →
       o.headers = Except.error () →
       panel_opened_ok o d = false) ∧
    (∀ (clickOk verify : Nat → Bool) (n : Nat),
       tryChain clickOk verify n = none ↔
         ∀ k, k < n → ¬(clickOk k = true ∧ verify k = true)) := by
  constructor
  · intro o d h1 h2 h3
    unfold panel_opened_ok
    rw [h1, h2, h3]
    rfl
  · intro clickOk verify n
    rw [tryChain, tryCandidates_none_iff clickOk verify n 0]
    constructor
    · intro h k hk
      exact h k (by omega) (by omega)
    · intro h k hk1 hk2
      exact h k (by omega)

/-- C9 witness: with every external call raising, the verifier still returns
false; and a chain of three clicked-but-unverified candidates returns no
pick (the loop ran through all of them). -/
theorem C9_panel_verifier_total_witness :
    panel_opened_ok failingOracle { year := 2025, month := 10, day := 12 } = false ∧
    tryChain (fun _ => true) (fun _ => false) 3 = none :=
  ⟨C9_panel_verifier_total.1 failingOracle { year := 2025, month := 10, day := 12 }
     rfl rfl rfl,
   (C9_panel_verifier_total.2 (fun _ => true) (fun _ => false) 3).mpr
     (fun k _ h => by simp at h)⟩

end SLCM
